import Mathlib

/-!
Shallow embedding of `calculate()` from gcswheel.py, the scale-model core of
the gcswheel circular slide rule generator.  Each row of the Python data
dictionary `[orig val, corrected val, logval, scaled log val, rot pos]` becomes
a `ScalePoint`; the five per-axis generation loops become `List.map` over the
integer domains, and the alignment constants (`gimod`, `gimin`, `crmin`,
`cgmin`, `kmmin`, `cadmin`, `refpt`, `sprefpt`) are defined exactly as the
source computes them.  Floating-point arithmetic is modelled over ℝ.
-/

namespace Gcswheel

open Real

/-- One row of a scale series: original integer value, physically corrected
value (when the axis applies a transform before the log), natural log,
log scaled by the shared angular modulus, and final rotational position. -/
structure ScalePoint where
  raw : ℕ
  transformed : Option ℝ
  logValue : ℝ
  scaledAngle : ℝ
  finalAngle : ℝ

instance : Inhabited ScalePoint := ⟨⟨0, none, 0, 0, 0⟩⟩

/-- Assumed 2090mm rollout for a 700x20c wheel and tyre (`TYRE_C = 2.090`). -/
noncomputable def TYRE_C : ℝ := 2.090

/-- Gear-inch domain: `i = 68; while i <= 112: ...; i += 1`. -/
def giRaws : List ℕ := List.range' 68 45

/-- Chainring-teeth domain: `i = 42; while i <= 52: ...; i += 1`. -/
def crRaws : List ℕ := List.range' 42 11

/-- Cog-teeth domain, descending: `i = 18; while i >= 12: ...; i -= 1`. -/
def cgRaws : List ℕ := (List.range' 12 7).reverse

/-- Speed domain in km/h: `i = 35; while i <= 55: ...; i += 1`. -/
def kmRaws : List ℕ := List.range' 35 21

/-- Cadence domain in rpm: `i = 80; while i <= 150: ...; i += 1`. -/
def cdRaws : List ℕ := List.range' 80 71

/-- Gear inches converted to gear ratio: `nf = i / 27.0`. -/
noncomputable def giTransformed (i : ℕ) : ℝ := i / 27

/-- `nlf = log(nf)` for the gear-inch row `i`. -/
noncomputable def giLogValue (i : ℕ) : ℝ := Real.log (giTransformed i)

/-- `girawmin = data['gi'][0][2]`: log value of the first gear-inch row. -/
noncomputable def girawmin : ℝ := (giRaws.map giLogValue).headD 0

/-- `girawmax = data['gi'][-1][2]`: log value of the last gear-inch row. -/
noncomputable def girawmax : ℝ := (giRaws.map giLogValue).getLastD 0

/-- `girangerad = 0.82 * pi`: angular span of the gear-inch axis. -/
noncomputable def girangerad : ℝ := 0.82 * π

/-- `girangeraw = girawmax - girawmin`: log-space span of the gear-inch axis. -/
noncomputable def girangeraw : ℝ := girawmax - girawmin

/-- `gimod = girangerad / girangeraw`: shared angle-per-log-unit modulus. -/
noncomputable def gimod : ℝ := girangerad / girangeraw

/-- Scaled log value of the gear-inch row `i`: `rad = gimod * g[2]`. -/
noncomputable def giScaled (i : ℕ) : ℝ := gimod * giLogValue i

/-- `gimin = data['gi'][0][3]`: scaled angle of the first gear-inch row. -/
noncomputable def gimin : ℝ := (giRaws.map giScaled).headD 0

/-- Final rotation of gear-inch row `i`: `if g[0] != 60: g[4] = g[3] - gimin`,
otherwise the row keeps its initial `0.0`. -/
noncomputable def giFinal (i : ℕ) : ℝ := if i ≠ 60 then giScaled i - gimin else 0

/-- The gear-inch row for domain value `i`. -/
noncomputable def mkGi (i : ℕ) : ScalePoint :=
  ⟨i, some (giTransformed i), giLogValue i, giScaled i, giFinal i⟩

/-- The gear-inch series `data['gi']` as returned by `calculate()`. -/
noncomputable def giSeries : List ScalePoint := giRaws.map mkGi

/-- `lnr = log(i)` for the chainring row `i`. -/
noncomputable def crLogValue (i : ℕ) : ℝ := Real.log i

/-- `crmin = 0.525 * pi`: chainring axis rotation offset. -/
noncomputable def crmin : ℝ := 0.525 * π

/-- Scaled log value of chainring row `i`: `rad = gimod * r[2]`. -/
noncomputable def crScaled (i : ℕ) : ℝ := gimod * crLogValue i

/-- Final rotation of chainring row `i`: `r[4] = rad - crmin`. -/
noncomputable def crFinal (i : ℕ) : ℝ := crScaled i - crmin

/-- The chainring row for domain value `i`. -/
noncomputable def mkCr (i : ℕ) : ScalePoint :=
  ⟨i, none, crLogValue i, crScaled i, crFinal i⟩

/-- The chainring series `data['cr']` as returned by `calculate()`. -/
noncomputable def crSeries : List ScalePoint := crRaws.map mkCr

/-- `cogoft = 5`: designated chainring reference index. -/
def cogoft : ℕ := 5

/-- `data['refpt'] = data['cr'][cogoft][4]`: the CR reference angle. -/
noncomputable def refpt : ℝ := (crSeries.getD cogoft default).finalAngle

/-- `cgmin = gimin - data['cr'][cogoft][3]`: cog axis rotation offset. -/
noncomputable def cgmin : ℝ := gimin - (crSeries.getD cogoft default).scaledAngle

/-- `cgmod = -1.0 * gimod`: the cog scale is inverted. -/
noncomputable def cgmod : ℝ := -1 * gimod

/-- `lnc = log(i)` for the cog row `i`. -/
noncomputable def cgLogValue (i : ℕ) : ℝ := Real.log i

/-- Scaled log value of cog row `i`: `rad = cgmod * c[2]`. -/
noncomputable def cgScaled (i : ℕ) : ℝ := cgmod * cgLogValue i

/-- Final rotation of cog row `i`: `c[4] = rad - cgmin`. -/
noncomputable def cgFinal (i : ℕ) : ℝ := cgScaled i - cgmin

/-- The cog row for domain value `i`. -/
noncomputable def mkCg (i : ℕ) : ScalePoint :=
  ⟨i, none, cgLogValue i, cgScaled i, cgFinal i⟩

/-- The cog series `data['cg']` as returned by `calculate()`. -/
noncomputable def cgSeries : List ScalePoint := cgRaws.map mkCg

/-- `gearoft = 3`: designated cog reference index. -/
def gearoft : ℕ := 3

/-- `data['sprefpt'] = data['cg'][gearoft][4]`: the GR reference angle. -/
noncomputable def sprefpt : ℝ := (cgSeries.getD gearoft default).finalAngle

/-- `kmmin = -0.32 * pi`: speed axis rotation offset. -/
noncomputable def kmmin : ℝ := -0.32 * π

/-- Speed in km/h converted to wheel speed in hertz:
`kf = nk / (3.6 * TYRE_C)`. -/
noncomputable def kmTransformed (i : ℕ) : ℝ := i / (3.6 * TYRE_C)

/-- `lkf = log(kf)` for the speed row `i`. -/
noncomputable def kmLogValue (i : ℕ) : ℝ := Real.log (kmTransformed i)

/-- Scaled log value of speed row `i`: `rad = gimod * k[2]`. -/
noncomputable def kmScaled (i : ℕ) : ℝ := gimod * kmLogValue i

/-- Final rotation of speed row `i`: `k[4] = rad - kmmin`. -/
noncomputable def kmFinal (i : ℕ) : ℝ := kmScaled i - kmmin

/-- The speed row for domain value `i`. -/
noncomputable def mkKm (i : ℕ) : ScalePoint :=
  ⟨i, some (kmTransformed i), kmLogValue i, kmScaled i, kmFinal i⟩

/-- The speed series `data['km']` as returned by `calculate()`. -/
noncomputable def kmSeries : List ScalePoint := kmRaws.map mkKm

/-- `cadmin = data['gi'][0][3] - kmmin`: cadence axis rotation offset
(`data['gi'][0][3]` is the same value bound to `gimin`). -/
noncomputable def cadmin : ℝ := gimin - kmmin

/-- Cadence in rpm converted to hertz: `df = nd / 60.0`. -/
noncomputable def cdTransformed (i : ℕ) : ℝ := i / 60

/-- `ldf = log(df)` for the cadence row `i`. -/
noncomputable def cdLogValue (i : ℕ) : ℝ := Real.log (cdTransformed i)

/-- Scaled log value of cadence row `i`: `rad = gimod * d[2]`. -/
noncomputable def cdScaled (i : ℕ) : ℝ := gimod * cdLogValue i

/-- Final rotation of cadence row `i`:
`d[4] = rad + cadmin + data['sprefpt']`. -/
noncomputable def cdFinal (i : ℕ) : ℝ := cdScaled i + cadmin + sprefpt

/-- The cadence row for domain value `i`. -/
noncomputable def mkCd (i : ℕ) : ScalePoint :=
  ⟨i, some (cdTransformed i), cdLogValue i, cdScaled i, cdFinal i⟩

/-- The cadence series `data['cd']` as returned by `calculate()`. -/
noncomputable def cdSeries : List ScalePoint := cdRaws.map mkCd

/-- The value returned by `calculate()`: the five series plus the two
reference angles `refpt`, `sprefpt`. -/
structure ScaleResult where
  gi : List ScalePoint
  cr : List ScalePoint
  cg : List ScalePoint
  km : List ScalePoint
  cd : List ScalePoint
  refAngle : ℝ
  spRefAngle : ℝ

/-- `calculate()`: assembles the full scale-marking data.  It takes no
arguments in the source; the `Unit` argument stands for one invocation. -/
noncomputable def calculate (_ : Unit) : ScaleResult :=
  ⟨giSeries, crSeries, cgSeries, kmSeries, cdSeries, refpt, sprefpt⟩

lemma girawmin_val : girawmin = giLogValue 68 := rfl

lemma girawmax_val : girawmax = giLogValue 112 := rfl

lemma gimin_val : gimin = giScaled 68 := rfl

lemma refpt_val : refpt = crFinal 47 := rfl

lemma cgmin_val : cgmin = gimin - crScaled 47 := rfl

lemma sprefpt_val : sprefpt = cgFinal 15 := rfl

lemma giLogValue_cast (i : ℕ) : giLogValue i = Real.log ((i : ℝ) / 27) := rfl

lemma girangeraw_val : girangeraw = Real.log ((112 : ℝ) / 27) - Real.log ((68 : ℝ) / 27) := by
  rw [girangeraw, girawmin_val, girawmax_val, giLogValue_cast, giLogValue_cast]
  norm_num

lemma log_ratio_pos : 0 < Real.log ((112 : ℝ) / 27) - Real.log ((68 : ℝ) / 27) := by
  have h : Real.log ((68 : ℝ) / 27) < Real.log ((112 : ℝ) / 27) :=
    Real.log_lt_log (by norm_num) (by norm_num)
  linarith

lemma girangeraw_pos : 0 < girangeraw := girangeraw_val ▸ log_ratio_pos

lemma gimod_pos : 0 < gimod := by
  have hnum : 0 < girangerad := by
    have := Real.pi_pos
    rw [girangerad]; linarith
  exact div_pos hnum girangeraw_pos

/-- C2: the result of `calculate()` holds exactly five series whose lengths
are the closed-form counts of their inclusive integer domains: 45 gear-inch
entries (68..112), 11 chainring entries (42..52), 7 cog entries (18 down to
12), 21 speed entries (35..55) and 71 cadence entries (80..150). -/
theorem series_lengths :
    (calculate ()).gi.length = 45 ∧ (calculate ()).cr.length = 11 ∧
    (calculate ()).cg.length = 7 ∧ (calculate ()).km.length = 21 ∧
    (calculate ()).cd.length = 71 := by
  refine ⟨?_, ?_, ?_, ?_, ?_⟩ <;>
    simp [calculate, giSeries, crSeries, cgSeries, kmSeries, cdSeries,
      giRaws, crRaws, cgRaws, kmRaws, cdRaws]

/-- C5: `refpt` is the final angle of chainring entry at index 5 (raw 47),
and `sprefpt` is the final angle of the cog entry at index 3 (raw 15). -/
theorem reference_angles :
    crSeries.getD 5 default = mkCr 47 ∧ refpt = (crSeries.getD 5 default).finalAngle ∧
    refpt = crFinal 47 ∧
    cgSeries.getD 3 default = mkCg 15 ∧ sprefpt = (cgSeries.getD 3 default).finalAngle ∧
    sprefpt = cgFinal 15 :=
  ⟨rfl, rfl, rfl, rfl, rfl, rfl⟩

/-- C9: `calculate()` is a pure function of no inputs: any two invocations
return identical results, all five series and both reference angles included. -/
theorem calculate_deterministic : ∀ a b : Unit, calculate a = calculate b :=
  fun _ _ => rfl

/-- Witness for C9 at a concrete pair of invocations. -/
theorem calculate_deterministic_witness : calculate () = calculate () :=
  calculate_deterministic () ()

/-- C3: gear-inch endpoints and span: raw 68 lands on final angle 0, raw 112
on 0.82π, and the modulus times the log-range of the axis is exactly 0.82π. -/
theorem gi_endpoints :
    giFinal 68 = 0 ∧ giFinal 112 = 0.82 * π ∧
    gimod * (Real.log ((112 : ℝ) / 27) - Real.log ((68 : ℝ) / 27)) = 0.82 * π := by
  have hmod : gimod * (Real.log ((112 : ℝ) / 27) - Real.log ((68 : ℝ) / 27)) = 0.82 * π := by
    rw [gimod, ← girangeraw_val, div_mul_cancel₀ _ (ne_of_gt girangeraw_pos), girangerad]
  refine ⟨?_, ?_, hmod⟩
  · rw [giFinal, if_pos (by norm_num : (68 : ℕ) ≠ 60), gimin_val, sub_self]
  · rw [giFinal, if_pos (by norm_num : (112 : ℕ) ≠ 60), gimin_val]
    have hsub : giScaled 112 - giScaled 68 =
        gimod * (Real.log ((112 : ℝ) / 27) - Real.log ((68 : ℝ) / 27)) := by
      rw [giScaled, giScaled, giLogValue_cast, giLogValue_cast, ← mul_sub]
      norm_num
    rw [hsub, hmod]

/-- C4: every gear-inch entry has scaled angle `gimod * ln(raw/27)`; `gimin`
is the scaled angle of the raw-68 entry (the domain minimum); and every entry
other than raw 60 has final angle `scaledAngle - gimin`. -/
theorem gi_placement :
    gimin = (mkGi 68).scaledAngle ∧
    ∀ p ∈ giSeries, p.scaledAngle = gimod * Real.log ((p.raw : ℝ) / 27) ∧
      (p.raw ≠ 60 → p.finalAngle = p.scaledAngle - gimin) := by
  refine ⟨gimin_val, ?_⟩
  intro p hp
  obtain ⟨i, hi, rfl⟩ := List.mem_map.1 hp
  refine ⟨rfl, fun h60 => ?_⟩
  have h60i : i ≠ 60 := h60
  show giFinal i = giScaled i - gimin
  rw [giFinal, if_pos h60i]

/-- Witness for C4 at the raw-68 entry. -/
theorem gi_placement_witness :
    mkGi 68 ∈ giSeries ∧
    (mkGi 68).scaledAngle = gimod * Real.log (((mkGi 68).raw : ℝ) / 27) ∧
    (mkGi 68).finalAngle = (mkGi 68).scaledAngle - gimin := by
  have hm : mkGi 68 ∈ giSeries := List.mem_map.2 ⟨68, by decide, rfl⟩
  exact ⟨hm, (gi_placement.2 _ hm).1,
    (gi_placement.2 _ hm).2 (by decide : (68 : ℕ) ≠ 60)⟩

/-- C10: no gear-inch domain value is 60, so the raw-60 exclusion branch is
vacuous and every entry of the series has final angle `scaledAngle - gimin`. -/
theorem gi_no_sixty :
    (∀ i ∈ giRaws, i ≠ 60) ∧
    ∀ p ∈ giSeries, p.finalAngle = p.scaledAngle - gimin := by
  have h60 : ∀ i ∈ giRaws, i ≠ 60 := by decide
  refine ⟨h60, ?_⟩
  intro p hp
  obtain ⟨i, hi, rfl⟩ := List.mem_map.1 hp
  show giFinal i = giScaled i - gimin
  rw [giFinal, if_pos (h60 i hi)]

/-- Witness for C10 at the raw-112 entry. -/
theorem gi_no_sixty_witness :
    (112 ∈ giRaws → (112 : ℕ) ≠ 60) ∧
    (mkGi 112).finalAngle = (mkGi 112).scaledAngle - gimin :=
  ⟨fun h => gi_no_sixty.1 112 h,
    gi_no_sixty.2 _ (List.mem_map.2 ⟨112, by decide, rfl⟩)⟩

/-- C6: each cog entry's scaled angle is the negated shared modulus times the
log of its raw value, and the cog series is strictly decreasing in final
angle as the raw tooth count increases. -/
theorem cg_monotone :
    (∀ c ∈ cgRaws, cgScaled c = -gimod * Real.log (c : ℝ)) ∧
    ∀ c1 ∈ cgRaws, ∀ c2 ∈ cgRaws, c1 < c2 → cgFinal c2 < cgFinal c1 := by
  have hmem : ∀ c ∈ cgRaws, 12 ≤ c := by decide
  constructor
  · intro c _
    rw [cgScaled, cgmod, cgLogValue]; ring
  · intro c1 h1 c2 h2 hlt
    have hc1n : 0 < c1 := lt_of_lt_of_le (by norm_num) (hmem c1 h1)
    have hc1 : (0 : ℝ) < c1 := by exact_mod_cast hc1n
    have hcc : (c1 : ℝ) < c2 := by exact_mod_cast hlt
    have hlog : Real.log c1 < Real.log c2 := Real.log_lt_log hc1 hcc
    rw [cgFinal, cgFinal, cgScaled, cgScaled, cgmod, cgLogValue, cgLogValue]
    nlinarith [mul_pos gimod_pos (sub_pos.mpr hlog)]

/-- Witness for C6 at cogs 12 and 18. -/
theorem cg_monotone_witness :
    cgScaled 18 = -gimod * Real.log ((18 : ℕ) : ℝ) ∧ cgFinal 18 < cgFinal 12 := by
  have h18 : (18 : ℕ) ∈ cgRaws := by decide
  have h12 : (12 : ℕ) ∈ cgRaws := by decide
  exact ⟨cg_monotone.1 18 h18, cg_monotone.2 12 h12 18 h18 (by norm_num)⟩

/-- C7: the cadence offset is `gimin - (-0.32π)`, and every cadence entry has
transformed value raw/60, scaled angle `gimod * ln(raw/60)` and final angle
`scaledAngle + cadmin + sprefpt`. -/
theorem cadence_placement :
    cadmin = gimin - (-0.32 * π) ∧
    ∀ i ∈ cdRaws, cdTransformed i = (i : ℝ) / 60 ∧
      cdScaled i = gimod * Real.log ((i : ℝ) / 60) ∧
      cdFinal i = cdScaled i + cadmin + sprefpt :=
  ⟨rfl, fun _ _ => ⟨rfl, rfl, rfl⟩⟩

/-- Witness for C7 at cadence 80. -/
theorem cadence_placement_witness :
    cadmin = gimin - (-0.32 * π) ∧
    cdTransformed 80 = ((80 : ℕ) : ℝ) / 60 ∧
    cdScaled 80 = gimod * Real.log (((80 : ℕ) : ℝ) / 60) ∧
    cdFinal 80 = cdScaled 80 + cadmin + sprefpt := by
  have h := cadence_placement.2 80 (by decide)
  exact ⟨cadence_placement.1, h.1, h.2.1, h.2.2⟩

/-- C1: slide-rule alignment for the gearing equation: for any chainring in
42..52 and cog in 12..18, the chainring final angle plus the cog final angle
minus the CR reference angle equals the gear-inch-axis angular position of
`gear_inches = 27 * r / c`, i.e. `gimod * ln((27r/c)/27) - gimin`. -/
theorem slide_rule_alignment (r c : ℕ) (hr1 : 42 ≤ r) (hr2 : r ≤ 52)
    (hc1 : 12 ≤ c) (hc2 : c ≤ 18) :
    crFinal r + cgFinal c - refpt =
      gimod * Real.log ((27 * (r : ℝ) / c) / 27) - gimin := by
  have hrpos : (0 : ℝ) < r := by exact_mod_cast lt_of_lt_of_le (by norm_num) hr1
  have hcpos : (0 : ℝ) < c := by exact_mod_cast lt_of_lt_of_le (by norm_num) hc1
  have hc0 : (c : ℝ) ≠ 0 := ne_of_gt hcpos
  have hsimp : (27 * (r : ℝ) / c) / 27 = (r : ℝ) / c := by
    field_simp
    ring
  rw [hsimp, Real.log_div (ne_of_gt hrpos) hc0]
  simp only [refpt_val, cgmin_val, crFinal, cgFinal, crScaled, cgScaled, cgmod,
    crLogValue, cgLogValue]
  ring

/-- Witness for C1 at chainring 47 and cog 15. -/
theorem slide_rule_alignment_witness :
    ((42 : ℕ) ≤ 47 ∧ (47 : ℕ) ≤ 52 ∧ (12 : ℕ) ≤ 15 ∧ (15 : ℕ) ≤ 18) ∧
    crFinal 47 + cgFinal 15 - refpt =
      gimod * Real.log ((27 * ((47 : ℕ) : ℝ) / ((15 : ℕ) : ℝ)) / 27) - gimin :=
  ⟨⟨by norm_num, by norm_num, by norm_num, by norm_num⟩,
    slide_rule_alignment 47 15 (by norm_num) (by norm_num) (by norm_num) (by norm_num)⟩

lemma kmTransformed_35 : kmTransformed 35 = 8750 / 1881 := by
  rw [kmTransformed, TYRE_C]
  norm_num

/-- C8 counterexample: the speed entry for 35 km/h has transformed value
35/(3.6·2.090) = 8750/1881 ≈ 4.65178, which differs from the claimed
reference value 4.6499 by more than 1/1000, far beyond the claimed 1e-6
precision. -/
theorem speed_fixture_counterexample : 1 / 1000 < |kmTransformed 35 - 4.6499| := by
  rw [kmTransformed_35, abs_of_pos (by norm_num)]
  norm_num

/-- C8 amended: the speed entry for raw 35 has transformed value
35/(3.6·2.090) = 8750/1881 ≈ 4.651781 (not 4.6499), log value
≈ 1.53725 (not 1.5369), and final angle `gimod * logValue + 0.32π`. -/
theorem speed_fixture_amended :
    kmTransformed 35 = 8750 / 1881 ∧
    |kmTransformed 35 - 4.651781| < 1 / 100000 ∧
    |kmLogValue 35 - 1.53725| < 1 / 10000 ∧
    kmFinal 35 = gimod * kmLogValue 35 + 0.32 * π := by
  have htrans : |kmTransformed 35 - 4.651781| < 1 / 100000 := by
    rw [kmTransformed_35]
    rw [abs_of_neg (by norm_num)]
    norm_num
  have hlogeq : kmLogValue 35 = 2 * Real.log 2 + Real.log (4375 / 3762) := by
    rw [kmLogValue, kmTransformed_35,
      show (8750 / 1881 : ℝ) = 2 ^ 2 * (4375 / 3762) by norm_num,
      Real.log_mul (by norm_num) (by norm_num), Real.log_pow]
    norm_num
  have hxneg : (-613 / 3762 : ℝ) < 0 := by norm_num
  have hx : |(-613 / 3762 : ℝ)| < 1 := by
    rw [abs_of_neg hxneg]; norm_num
  have hT := Real.abs_log_sub_add_sum_range_le hx 6
  rw [show (1 : ℝ) - -613 / 3762 = 4375 / 3762 by norm_num,
    abs_of_neg hxneg] at hT
  simp only [Finset.sum_range_succ, Finset.sum_range_zero] at hT
  norm_num at hT
  rw [abs_le] at hT
  obtain ⟨hT1, hT2⟩ := hT
  have hlog : |kmLogValue 35 - 1.53725| < 1 / 10000 := by
    rw [hlogeq, abs_lt]
    constructor
    · nlinarith [Real.log_two_gt_d9, hT1, hT2]
    · nlinarith [Real.log_two_lt_d9, hT1, hT2]
  have hfin : kmFinal 35 = gimod * kmLogValue 35 + 0.32 * π := by
    rw [kmFinal, kmScaled, kmmin]
    ring
  exact ⟨kmTransformed_35, htrans, hlog, hfin⟩

end Gcswheel
